import Mathlib

/-!
Verification of the table-of-contents synchronization engine of the
`edbzn.dev` site: the `TableOfContents` React component
(`src/components/table-of-contents`), comprising the heading-tree
flattener (`flatHeadings` / `flatten`), the active-section tracker
(the `IntersectionObserver` effect maintaining `activeId`), and the
nested navigation renderer (`buildNestedList` and the click handler).

The JavaScript is shallowly embedded: JS values that can be `undefined`
are `Option`; the component's hook state is an explicit state record and
the React lifecycle (mount effect, effect re-run on dependency change,
unmount cleanup) becomes explicit transition functions; the DOM is a
list of ids for which `document.getElementById` finds an element.
-/

/-- A flattened heading reference, as pushed by `flatten`:
`{ id: item.url?.replace('#','') || '', url: item.url }`. -/
structure FlatRef where
  id : String
  url : Option String
deriving DecidableEq, Repr

/-- A node of the heading tree supplied by Gatsby's MDX
`tableOfContents`: `{ title, url, items }`, where `url` is the anchor
(`"#" + id`) and `items` the child nodes; both may be absent
(`undefined`), which `Option.none` models. -/
inductive HeadingNode : Type where
  | mk (title : String) (url : Option String) (items : Option (List HeadingNode))

/-- `title` field accessor. -/
def HeadingNode.title : HeadingNode → String
  | .mk t _ _ => t

/-- `url` field accessor. -/
def HeadingNode.url : HeadingNode → Option String
  | .mk _ u _ => u

/-- `items` field accessor. -/
def HeadingNode.items : HeadingNode → Option (List HeadingNode)
  | .mk _ _ i => i

/-- Remove the first occurrence of `'#'` from a character list. -/
def removeFirstHash : List Char → List Char
  | [] => []
  | c :: cs => if c = '#' then cs else c :: removeFirstHash cs

/-- JavaScript `s.replace('#', '')`: with a string pattern, `replace`
replaces only the first occurrence (wherever it is, not necessarily
leading). -/
def jsReplaceFirstHash (s : String) : String :=
  ⟨removeFirstHash s.data⟩

/-- `item.url?.replace('#', '') || ''`: optional chaining yields
`undefined` for an absent url, and `|| ''` coalesces `undefined` (and
the already-empty string) to `''`. -/
def flatId : Option String → String
  | none => ""
  | some u => jsReplaceFirstHash u

/-- The recursive `flatten` of `flatHeadings`: for each item push
`{id, url}`, then, when `item.items` is truthy (any array, even empty),
push the flattened child items. Depth-first, parent before children,
sibling order preserved. -/
def flatten : List HeadingNode → List FlatRef
  | [] => []
  | HeadingNode.mk _ url items :: rest =>
      ⟨flatId url, url⟩ ::
        ((match items with
          | some sub => flatten sub
          | none => []) ++ flatten rest)

/-- The `headings` prop as received at runtime: it may be `undefined`,
`null`, some non-array value, or an actual array of heading nodes. -/
inductive HeadingsInput : Type where
  | undef
  | null
  | notArray
  | arr (l : List HeadingNode)

/-- `flatHeadings`: `if (!Array.isArray(headings)) return [];` then
`flatten(headings)`. -/
def flatHeadings : HeadingsInput → List FlatRef
  | .arr l => flatten l
  | _ => []

/-- The child list of a node: `item.items` when present, else no
children (an absent `items` and `items: []` contribute the same
flattened output and the same rendering). -/
def childList (n : HeadingNode) : List HeadingNode :=
  match n.items with
  | some l => l
  | none => []

/-- Depth-first node sequence of a heading forest: each node before its
children, children before later siblings. -/
def dfNodes : List HeadingNode → List HeadingNode
  | [] => []
  | HeadingNode.mk t u items :: rest =>
      HeadingNode.mk t u items ::
        ((match items with
          | some sub => dfNodes sub
          | none => []) ++ dfNodes rest)

/-- Total number of nodes in a heading forest. -/
def nodeCount : List HeadingNode → Nat
  | [] => 0
  | HeadingNode.mk _ _ items :: rest =>
      1 + (match items with
           | some sub => nodeCount sub
           | none => 0) + nodeCount rest

/-! ## Active-section tracker

The `useEffect` hook: `headingElements` are the DOM elements found for
the flattened ids (`document.getElementById` per id, `filter(Boolean)`);
if none is found no observer is created; the `IntersectionObserver`
callback runs `entries.forEach(e => { if (e.isIntersecting)
setActiveId(e.target.id) })`; cleanup unobserves every observed element.
The DOM is modelled as the list of ids `getElementById` resolves. -/

/-- `document.getElementById(i)` finds an element with id `i`. -/
def domHas (dom : List String) (i : String) : Bool :=
  dom.contains i

/-- The ids of `headingElements`: the flattened ids whose element exists
(`.map(({id}) => document.getElementById(id)).filter(Boolean)`); an id
whose element is not found is dropped by `filter(Boolean)`, the rest
are kept in order. Each observed element's `.id` is the id it was
looked up by. -/
def observedIds (h : HeadingsInput) (dom : List String) : List String :=
  ((flatHeadings h).map (·.id)).filter (fun i => domHas dom i)

/-- One `IntersectionObserverEntry`: the observed element's id and its
`isIntersecting` flag. -/
structure Entry where
  targetId : String
  isIntersecting : Bool
deriving DecidableEq, Repr

/-- The observer callback over one delivered batch:
`entries.forEach(e => { if (e.isIntersecting) setActiveId(e.target.id) })`
— entries in delivery order, each applied independently, intersecting
entries overwrite `activeId`, others leave it alone. -/
def processEntries (entries : List Entry) (activeId : String) : String :=
  entries.foldl (fun acc e => if e.isIntersecting then e.targetId else acc) activeId

/-- The component's explicit state: the `headings` prop, the ambient
DOM, the two `useState` hooks (`activeId`, `isOpen`), the id set the
effect currently observes, and whether the component is mounted. -/
structure TocSys where
  headings : HeadingsInput
  dom : List String
  activeId : String
  isOpen : Bool
  observed : List String
  mounted : Bool

/-- Mount: `useState('')`, `useState(false)`, and the effect observes
the elements found for the flattened ids (none when none is found:
`if (headingElements.length === 0) return;` leaves nothing observed
either way). -/
def initState (h : HeadingsInput) (dom : List String) : TocSys :=
  { headings := h, dom := dom, activeId := "", isOpen := false,
    observed := observedIds h dom, mounted := true }

/-- An intersection batch is delivered: the callback folds over the
entries. (The environment only delivers entries for observed targets;
theorems state that as a hypothesis.) -/
def stepIntersect (s : TocSys) (entries : List Entry) : TocSys :=
  { s with activeId := processEntries entries s.activeId }

/-- The `headings` prop (hence `flatHeadings`) changes: the effect
cleanup unobserves the old elements and the effect re-runs, observing
the elements of the new flattened list. Neither the cleanup nor the
effect touches `activeId` or `isOpen`. -/
def stepTreeChange (s : TocSys) (h : HeadingsInput) : TocSys :=
  { s with headings := h, observed := observedIds h s.dom }

/-- The toggle button's `onClick={() => setIsOpen(!isOpen)}`. -/
def stepToggle (s : TocSys) : TocSys :=
  { s with isOpen := !s.isOpen }

/-- Unmount (disposal): the cleanup unobserves every observed element
(unobserving an already-unobserved target is a no-op, so a second
disposal changes nothing), and React discards the hook state — a
disposed component holds no `activeId`/`isOpen` state, modelled by the
initial values with `mounted := false`. -/
def dispose (s : TocSys) : TocSys :=
  { headings := s.headings, dom := s.dom, activeId := "", isOpen := false,
    observed := [], mounted := false }

/-! ## Nested navigation renderer

`buildNestedList` renders an `<ol>` of `<li>`: each item an `<a>` with
`href={item.url}`, active class exactly when
`activeId === item.url?.replace('#','')`, recursing into `item.items`
when it is a non-empty array. The component returns `null` when the
flattened list is empty. -/

/-- A rendered item: link title, `href`, whether the `tocLinkActive`
class is present, and the rendered sub-list (empty when no sub-list is
rendered: `item.items && item.items.length > 0 && buildNestedList(...)`
renders nothing for an absent or empty `items`). -/
inductive RTree : Type where
  | mk (title : String) (href : Option String) (active : Bool) (sub : List RTree)

/-- The active-class condition `activeId === item.url?.replace('#','')`:
for an absent url the right side is `undefined`, and a string never
strictly equals `undefined` — note there is no `|| ''` here, unlike in
`flatten`. -/
def renderActive (activeId : String) : Option String → Bool
  | none => false
  | some u => jsReplaceFirstHash u == activeId

/-- `buildNestedList` over a heading-node list. -/
def buildNestedList (activeId : String) : List HeadingNode → List RTree
  | [] => []
  | HeadingNode.mk t u items :: rest =>
      RTree.mk t u (renderActive activeId u)
        (match items with
         | some sub => if sub.length > 0 then buildNestedList activeId sub else []
         | none => []) ::
      buildNestedList activeId rest

/-- A link as seen in the rendered output. -/
structure LinkView where
  title : String
  href : Option String
  active : Bool
deriving DecidableEq, Repr

/-- All links of a rendered list, depth-first. -/
def linksOf : List RTree → List LinkView
  | [] => []
  | RTree.mk t h a sub :: rest =>
      ⟨t, h, a⟩ :: (linksOf sub ++ linksOf rest)

/-- The rendered component: `null` when `flatHeadings` is empty
(`if (!flatHeadings || flatHeadings.length === 0) return null;` —
`flatHeadings` is always an array, so only the length test matters),
else the `<nav>` with the toggle state and `buildNestedList(headings)`
(reachable only with an array prop, since a non-array flattens to
`[]`). -/
def renderTOC (h : HeadingsInput) (activeId : String) (isOpen : Bool) :
    Option (Bool × List RTree) :=
  if (flatHeadings h).isEmpty then none
  else
    match h with
    | .arr l => some (isOpen, buildNestedList activeId l)
    | _ => none

/-! ## Click navigation -/

/-- One `scrollIntoView` request with its options. -/
structure ScrollRequest where
  targetId : String
  behavior : String
  block : String
deriving DecidableEq, Repr

/-- Result of firing a link's `onClick`: whether `e.preventDefault()`
ran and the scroll requests issued. -/
structure ClickResult where
  defaultPrevented : Bool
  scrolls : List ScrollRequest
deriving DecidableEq, Repr

/-- The link's `onClick`: `e.preventDefault()` always runs; then
`document.getElementById(item.url?.replace('#',''))?.scrollIntoView({
behavior:'smooth', block:'start' })` — exactly one request when the
element exists, none otherwise thanks to the optional call (for an
absent url the id is `undefined`, which names no element). -/
def onLinkClick (url : Option String) (dom : List String) : ClickResult :=
  { defaultPrevented := true,
    scrolls :=
      match url with
      | some u =>
          let i := jsReplaceFirstHash u
          if domHas dom i then [⟨i, "smooth", "start"⟩] else []
      | none => [] }

/-- Clicking a link leaves the component state alone (the handler calls
no state setter) and yields the click result. -/
def clickStep (s : TocSys) (url : Option String) : TocSys × ClickResult :=
  (s, onLinkClick url s.dom)

/-! ## Helper lemmas -/

/-- `flatten` is exactly the per-node projection of the depth-first
node sequence: no node is dropped, duplicated, or reordered. -/
theorem flatten_eq_map_dfNodes :
    ∀ l : List HeadingNode,
      flatten l = (dfNodes l).map (fun n => ⟨flatId n.url, n.url⟩)
  | [] => by simp [flatten, dfNodes]
  | HeadingNode.mk t u items :: rest => by
      have hrest := flatten_eq_map_dfNodes rest
      cases items with
      | none => simp [flatten, dfNodes, HeadingNode.url, hrest]
      | some sub =>
          have hsub := flatten_eq_map_dfNodes sub
          simp [flatten, dfNodes, HeadingNode.url, hrest, hsub]

/-- The depth-first node sequence enumerates every node exactly once. -/
theorem dfNodes_length :
    ∀ l : List HeadingNode, (dfNodes l).length = nodeCount l
  | [] => by simp [dfNodes, nodeCount]
  | HeadingNode.mk t u items :: rest => by
      have hrest := dfNodes_length rest
      cases items with
      | none => simp [dfNodes, nodeCount, hrest]; omega
      | some sub =>
          have hsub := dfNodes_length sub
          simp [dfNodes, nodeCount, hrest, hsub]; omega

/-- The last intersecting entry of a batch, if any. -/
def lastIntersecting : List Entry → Option Entry
  | [] => none
  | e :: es =>
      match lastIntersecting es with
      | some x => some x
      | none => if e.isIntersecting then some e else none

/-- The observer callback realizes "last observed crossing wins": the
batch leaves `activeId` at the last intersecting entry's target id, or
unchanged when no entry intersects. -/
theorem processEntries_char (entries : List Entry) (a : String) :
    processEntries entries a =
      match lastIntersecting entries with
      | some e => e.targetId
      | none => a := by
  induction entries generalizing a with
  | nil => rfl
  | cons e es ih =>
      have step : processEntries (e :: es) a
          = processEntries es (if e.isIntersecting then e.targetId else a) := rfl
      rw [step, ih]
      cases h : lastIntersecting es with
      | some x => simp [lastIntersecting, h]
      | none => cases hi : e.isIntersecting <;> simp [lastIntersecting, h, hi]

/-- The last intersecting entry is an intersecting member of the batch. -/
theorem lastIntersecting_mem {entries : List Entry} {e : Entry}
    (h : lastIntersecting entries = some e) :
    e ∈ entries ∧ e.isIntersecting = true := by
  induction entries with
  | nil => simp [lastIntersecting] at h
  | cons x xs ih =>
      rw [lastIntersecting] at h
      cases hx : lastIntersecting xs with
      | some y =>
          rw [hx] at h
          obtain ⟨hm, hi⟩ := ih (hx.trans (by rw [← h]))
          exact ⟨List.mem_cons_of_mem _ hm, hi⟩
      | none =>
          rw [hx] at h
          by_cases hi : x.isIntersecting
          · simp [hi] at h
            exact ⟨by simp [← h], by simp [← h, hi]⟩
          · simp [hi] at h

/-- Every observed id comes from the current flattened list. -/
theorem observedIds_subset (h : HeadingsInput) (dom : List String) :
    observedIds h dom ⊆ (flatHeadings h).map (·.id) :=
  fun _ hx => List.mem_of_mem_filter hx

/-- The rendered links are exactly the depth-first node sequence, each
with `href = url` and the active flag computed by `renderActive`. -/
theorem linksOf_buildNestedList (a : String) :
    ∀ l : List HeadingNode,
      linksOf (buildNestedList a l)
        = (dfNodes l).map (fun n => ⟨n.title, n.url, renderActive a n.url⟩)
  | [] => by simp [buildNestedList, dfNodes, linksOf]
  | HeadingNode.mk t u items :: rest => by
      have hrest := linksOf_buildNestedList a rest
      cases items with
      | none =>
          simp [buildNestedList, dfNodes, linksOf, HeadingNode.title,
            HeadingNode.url, hrest]
      | some sub =>
          cases sub with
          | nil =>
              simp [buildNestedList, dfNodes, linksOf, HeadingNode.title,
                HeadingNode.url, hrest]
          | cons x xs =>
              have hsub := linksOf_buildNestedList a (x :: xs)
              simp [buildNestedList, dfNodes, linksOf, HeadingNode.title,
                HeadingNode.url, hrest, hsub]

/-- A one-node tree whose sole heading has anchor `#a`. -/
def treeA : HeadingsInput :=
  .arr [HeadingNode.mk "A" (some "#a") none]

/-- A one-node tree whose sole heading has anchor `#b`. -/
def treeB : HeadingsInput :=
  .arr [HeadingNode.mk "B" (some "#b") none]

/-! ## Claims -/

/-- Claim C2: flattening is strictly depth-first — the flat sequence is
the depth-first node sequence (parent before its children, children
before later siblings, sibling order preserved) projected to
`{id, url}` entries; on the spec's example tree
`[{a, children:[a1]}, {b}]` it is exactly `[a, a1, b]`. -/
theorem C2_flatten_depth_first (l : List HeadingNode) (n : HeadingNode)
    (rest : List HeadingNode) :
    flatten l = (dfNodes l).map (fun m => ⟨flatId m.url, m.url⟩)
    ∧ dfNodes (n :: rest) = n :: (dfNodes (childList n) ++ dfNodes rest)
    ∧ flatHeadings (.arr [HeadingNode.mk "a" (some "#a")
          (some [HeadingNode.mk "a1" (some "#a1") none]),
        HeadingNode.mk "b" (some "#b") none])
      = [⟨"a", some "#a"⟩, ⟨"a1", some "#a1"⟩, ⟨"b", some "#b"⟩] := by
  refine ⟨flatten_eq_map_dfNodes l, ?_, ?_⟩
  · cases n with
    | mk t u items => cases items <;> simp [dfNodes, childList, HeadingNode.items]
  · simp [flatHeadings, flatten, flatId, jsReplaceFirstHash, removeFirstHash]

/-- Claim C10: flattening an array-shaped tree yields one entry per
node (length equals the node count, in depth-first correspondence); a
node with an absent url contributes `{id: "", url: undefined}` rather
than being dropped; and the id is the url with only the first `#`
occurrence removed, not necessarily a leading one. -/
theorem C10_one_entry_per_node (l : List HeadingNode) (t : String)
    (its : Option (List HeadingNode)) :
    (flatten l).length = nodeCount l
    ∧ flatten l = (dfNodes l).map (fun n => ⟨flatId n.url, n.url⟩)
    ∧ flatten [HeadingNode.mk t none its]
        = ⟨"", none⟩ :: flatten (childList (HeadingNode.mk t none its))
    ∧ flatId none = ""
    ∧ flatId (some "a#b") = "ab"
    ∧ flatId (some "#x#y") = "x#y" := by
  refine ⟨?_, flatten_eq_map_dfNodes l, ?_, rfl, ?_, ?_⟩
  · rw [flatten_eq_map_dfNodes, List.length_map, dfNodes_length]
  · cases its <;>
      simp [flatten, flatId, childList, HeadingNode.items]
  · simp [flatId, jsReplaceFirstHash, removeFirstHash]
  · simp [flatId, jsReplaceFirstHash, removeFirstHash]

/-- Claim C4: flattening `undefined`, `null`, a non-array value, or
`[]` yields `[]`; for each of these inputs the component renders
nothing at all (`null`, no empty containers) and no element is
observed. -/
theorem C4_empty_input (d : List String) (a : String) (b : Bool) :
    flatHeadings .undef = [] ∧ flatHeadings .null = []
    ∧ flatHeadings .notArray = [] ∧ flatHeadings (.arr []) = []
    ∧ renderTOC .undef a b = none ∧ renderTOC .null a b = none
    ∧ renderTOC .notArray a b = none ∧ renderTOC (.arr []) a b = none
    ∧ observedIds .undef d = [] ∧ observedIds .null d = []
    ∧ observedIds .notArray d = [] ∧ observedIds (.arr []) d = [] := by
  refine ⟨rfl, rfl, rfl, ?_, rfl, rfl, rfl, ?_, rfl, rfl, rfl, ?_⟩ <;>
    simp [flatHeadings, flatten, renderTOC, observedIds]

/-- Claim C3: the observer callback processes a delivered batch in
order with no reordering or debouncing: the tracker's new `activeId` is
the fold of the entries, which equals the target id of the last
intersecting entry (or stays unchanged when no entry intersects), and
batches compose sequentially. -/
theorem C3_last_crossing_wins (s : TocSys) (entries xs ys : List Entry)
    (a : String) :
    (stepIntersect s entries).activeId = processEntries entries s.activeId
    ∧ processEntries (xs ++ ys) a = processEntries ys (processEntries xs a)
    ∧ processEntries entries a
        = (match lastIntersecting entries with
           | some e => e.targetId
           | none => a)
    ∧ ((∀ e ∈ entries, e.isIntersecting = false) → processEntries entries a = a) := by
  refine ⟨rfl, List.foldl_append .., processEntries_char entries a, fun hall => ?_⟩
  rw [processEntries_char]
  cases h : lastIntersecting entries with
  | none => rfl
  | some e =>
      obtain ⟨hm, hi⟩ := lastIntersecting_mem h
      rw [hall e hm] at hi
      cases hi

/-- Witness for C3 at a concrete batch: a batch with no intersecting
entry leaves `activeId` unchanged. -/
theorem C3_witness :
    processEntries [⟨"h1", false⟩, ⟨"h2", false⟩] "cur" = "cur" :=
  (C3_last_crossing_wins (initState .undef []) [⟨"h1", false⟩, ⟨"h2", false⟩]
    [] [] "cur").2.2.2 (by decide)

/-- Claim C8 (amended statement is the claim itself, which holds):
toggling the panel changes only `isOpen`; an intersection batch never
changes `isOpen`; a tree change never changes `isOpen`; `isOpen`
defaults to `false` at mount. -/
theorem C8_toggle_independence (s : TocSys) (h : HeadingsInput)
    (d : List String) (entries : List Entry) :
    (stepToggle s).activeId = s.activeId
    ∧ (stepToggle s).headings = s.headings
    ∧ flatHeadings (stepToggle s).headings = flatHeadings s.headings
    ∧ (stepToggle s).observed = s.observed
    ∧ (stepToggle s).isOpen = !s.isOpen
    ∧ (stepIntersect s entries).isOpen = s.isOpen
    ∧ (stepTreeChange s h).isOpen = s.isOpen
    ∧ (initState h d).isOpen = false :=
  ⟨rfl, rfl, rfl, rfl, rfl, rfl, rfl, rfl⟩

/-- Claim C7: disposal is idempotent and total — disposing twice equals
disposing once, a disposed tracker holds no active id and observes
nothing, and disposing after the tree has become empty behaves the same
way. -/
theorem C7_teardown_idempotent (s : TocSys) :
    dispose (dispose s) = dispose s
    ∧ (dispose s).activeId = ""
    ∧ (dispose s).observed = []
    ∧ (dispose (stepTreeChange s (.arr []))).activeId = ""
    ∧ (dispose (stepTreeChange s (.arr []))).observed = []
    ∧ dispose (dispose (stepTreeChange s (.arr [])))
        = dispose (stepTreeChange s (.arr [])) :=
  ⟨rfl, rfl, rfl, rfl, rfl, rfl⟩

/-- Claim C9: an id whose element is missing is silently skipped —
exactly the flattened ids whose elements exist are observed, in order,
the others do not abort observation; at mount `activeId` is none; and
when no element at all is found, nothing is observed, so no batch can
be delivered and `activeId` stays none. -/
theorem C9_missing_targets_skipped (h : HeadingsInput) (d : List String)
    (i : String) :
    observedIds h d = ((flatHeadings h).map (·.id)).filter (fun j => domHas d j)
    ∧ (i ∈ observedIds h d ↔ i ∈ (flatHeadings h).map (·.id) ∧ domHas d i = true)
    ∧ (initState h d).activeId = ""
    ∧ (observedIds h d = [] →
        ∀ entries : List Entry,
          (∀ e ∈ entries, e.targetId ∈ (initState h d).observed) →
          stepIntersect (initState h d) entries = initState h d) := by
  refine ⟨rfl, ?_, rfl, fun hobs entries hmem => ?_⟩
  · simp [observedIds, List.mem_filter]
  · cases entries with
    | nil => rfl
    | cons e es =>
        have := hmem e (List.mem_cons_self e es)
        rw [show (initState h d).observed = observedIds h d from rfl, hobs] at this
        cases this

/-- Witness for C9 at a concrete input: a tree whose only id has no
element in the DOM observes nothing, and the empty deliverable batch
leaves the mounted state unchanged. -/
theorem C9_witness :
    stepIntersect (initState treeA []) [] = initState treeA [] :=
  (C9_missing_targets_skipped treeA [] "a").2.2.2
    (by simp [treeA, observedIds, flatHeadings, flatten, flatId,
      jsReplaceFirstHash, removeFirstHash, domHas])
    [] (by simp)

/-- Counterexample to claim C1: `activeId` is not discarded on tree
change. Mount with the one-heading tree `#a` (element present), deliver
an intersection for the observed `a`, then change the tree to the
one-heading tree `#b`: `activeId` is still `"a"`, which is not the id
of any node of the current flattened list (it was only in the previous
tree's list). -/
theorem C1_counterexample :
    "a" ∈ (initState treeA ["a", "b"]).observed
    ∧ (stepTreeChange (stepIntersect (initState treeA ["a", "b"])
        [⟨"a", true⟩]) treeB).activeId = "a"
    ∧ "a" ∉ ((flatHeadings (stepTreeChange (stepIntersect
        (initState treeA ["a", "b"]) [⟨"a", true⟩]) treeB).headings).map (·.id)) := by
  refine ⟨?_, rfl, ?_⟩ <;>
    simp [treeA, treeB, initState, stepIntersect, stepTreeChange, observedIds,
      flatHeadings, flatten, flatId, jsReplaceFirstHash, removeFirstHash, domHas]

/-- Claim C1 as amended: whenever a delivered batch (whose intersecting
entries all target currently observed elements, and with the observed
set the one the effect established) changes `activeId`, the new value
is an id present in the current flattened list; but a tree change
leaves `activeId` untouched, so immediately after a tree change it may
still be an id only present in the previous tree's flattened list. -/
theorem C1_active_id_in_current_list (s : TocSys) (entries : List Entry)
    (h2 : HeadingsInput)
    (hobs : s.observed = observedIds s.headings s.dom)
    (hdeliv : ∀ e ∈ entries, e.isIntersecting = true → e.targetId ∈ s.observed) :
    ((stepIntersect s entries).activeId = s.activeId
      ∨ (stepIntersect s entries).activeId
          ∈ ((flatHeadings (stepIntersect s entries).headings).map (·.id)))
    ∧ (stepTreeChange s h2).activeId = s.activeId := by
  refine ⟨?_, rfl⟩
  have hact : (stepIntersect s entries).activeId = processEntries entries s.activeId := rfl
  rw [hact, processEntries_char]
  cases h : lastIntersecting entries with
  | none => exact Or.inl rfl
  | some e =>
      obtain ⟨hm, hi⟩ := lastIntersecting_mem h
      have hmem : e.targetId ∈ s.observed := hdeliv e hm hi
      rw [hobs] at hmem
      exact Or.inr (observedIds_subset s.headings s.dom hmem)

/-- Witness for C1's amended theorem at a concrete input: mount with
the `#a` tree and its element present, deliver an intersection for the
observed `a`, and change the tree to the `#b` tree. -/
theorem C1_witness :
    ((stepIntersect (initState treeA ["a"]) [⟨"a", true⟩]).activeId
        = (initState treeA ["a"]).activeId
      ∨ (stepIntersect (initState treeA ["a"]) [⟨"a", true⟩]).activeId
          ∈ ((flatHeadings (stepIntersect (initState treeA ["a"])
              [⟨"a", true⟩]).headings).map (·.id)))
    ∧ (stepTreeChange (initState treeA ["a"]) treeB).activeId
        = (initState treeA ["a"]).activeId :=
  C1_active_id_in_current_list (initState treeA ["a"]) [⟨"a", true⟩] treeB rfl
    (by simp [treeA, initState, observedIds, flatHeadings, flatten, flatId,
      jsReplaceFirstHash, removeFirstHash, domHas])

/-- Counterexample to claim C5: "when activeId is none no node is
highlighted" fails. `activeId` none is the empty string (`useState('')`),
and a node whose anchor strips to the empty string (anchor `"#"`)
satisfies `activeId === item.url?.replace('#','')`, so its link carries
the active class while `activeId` is none. -/
theorem C5_counterexample :
    (linksOf (buildNestedList "" [HeadingNode.mk "intro" (some "#") none])).map
        (·.active) = [true] := by
  simp [buildNestedList, linksOf, renderActive, jsReplaceFirstHash,
    removeFirstHash]

/-- Claim C5 as amended: the rendered navigation marks active exactly
the nodes whose anchor is present and whose first-`#`-stripped anchor
equals the `activeId` string (a node with an absent anchor is never
highlighted); since `activeId` none is represented as the empty string,
a node whose stripped anchor is empty is highlighted when `activeId` is
none. -/
theorem C5_highlight_rule (a : String) (l : List HeadingNode) (u : String) :
    linksOf (buildNestedList a l)
      = (dfNodes l).map (fun n => ⟨n.title, n.url, renderActive a n.url⟩)
    ∧ renderActive a none = false
    ∧ renderActive a (some u) = (jsReplaceFirstHash u == a)
    ∧ ((linksOf (buildNestedList a l)).filter (·.active)).length
        = ((dfNodes l).filter (fun n => renderActive a n.url)).length := by
  refine ⟨linksOf_buildNestedList a l, rfl, rfl, ?_⟩
  rw [linksOf_buildNestedList, List.filter_map, List.length_map]
  rfl

/-- Counterexample to claim C6: clicking a link for anchor `#install`
when no element with id `install` exists issues no scroll request at
all, not "exactly one" (the optional `?.scrollIntoView` call short-
circuits); default navigation is still prevented. -/
theorem C6_counterexample :
    (onLinkClick (some "#install") []).defaultPrevented = true
    ∧ (onLinkClick (some "#install") []).scrolls = [] :=
  ⟨rfl, rfl⟩

/-- Claim C6 as amended: clicking a rendered link for anchor `#X`
always prevents default navigation and never touches the component
state (in particular `activeId`); it issues exactly one smooth,
top-aligned scroll request targeting the element with id `X` when that
element exists at click time, and none otherwise. -/
theorem C6_click_behavior (u : String) (dom : List String) (s : TocSys)
    (url : Option String) :
    (onLinkClick (some u) dom).defaultPrevented = true
    ∧ (onLinkClick (some u) dom).scrolls
        = (if domHas dom (jsReplaceFirstHash u)
           then [⟨jsReplaceFirstHash u, "smooth", "start"⟩] else [])
    ∧ (clickStep s url).1 = s
    ∧ (clickStep s url).2 = onLinkClick url s.dom :=
  ⟨rfl, rfl, rfl, rfl⟩
